import Mathlib

/-!
Verification of the jtui download / offline-content / playback core.

Shallow embedding of the Go sources:
  * `pkg/jellyfin/download.go` — path resolution (`BuildVideoPath`), download
    lifecycle (`DownloadVideo`, `IsDownloaded`, `RemoveDownload`), offline
    catalog scan (`parseOfflineContent`, `convertToItems`,
    `DiscoverOfflineContent`);
  * the client builder / mode selector (`ConnectFromConfig`,
    `CreateOfflineClient`, `IsOfflineMode`, `IsAuthenticated`);
  * the playback supervisor (`checkMpvStatus`, the completion handler of
    `playItem`, `CleanupMpvProcesses` and the tracked-process list).

Strings are modelled as Lean `String` (lists of characters); Go byte-length
truncation is modelled as character truncation, which agrees on ASCII.
Go `int` is modelled as `Int`, float64 positions as `ℚ`.  The filesystem is
modelled as an explicit state (lists of file and directory paths, each path a
list of segments).  Library calls (`fmt.Sprintf` verbs, `regexp` on the two
fixed patterns, `strings.TrimSpace` etc.) are translated to definitional
models noted at their definitions.
-/

namespace Jtui

/-! ## Character and string utilities -/

/-- The character class of the sanitizer regex in `BuildVideoPath`:
`[<>:"/\\|?*]`. -/
def isIllegalChar (c : Char) : Bool :=
  c == '<' || c == '>' || c == ':' || c == '"' || c == '/' || c == '\\' ||
  c == '|' || c == '?' || c == '*'

/-- Whitespace test used by the model of `strings.TrimSpace`. -/
def isWS (c : Char) : Bool := c.isWhitespace

/-- Model of `strings.TrimSpace`: drop leading and trailing whitespace. -/
def trimSpace (l : List Char) : List Char :=
  ((l.dropWhile isWS).reverse.dropWhile isWS).reverse

/-- The `sanitize` closure of `BuildVideoPath` (download.go:65-74): replace
every illegal character by `_`, truncate to 100 characters, then trim
whitespace. -/
def sanitizeChars (l : List Char) : List Char :=
  trimSpace ((l.map fun c => if isIllegalChar c then '_' else c).take 100)

/-- String-level sanitizer. -/
def sanitize (s : String) : String := ⟨sanitizeChars s.data⟩

/-- Decimal digit character for `d < 10`. -/
def digitChar (d : Nat) : Char := Char.ofNat (48 + d)

/-- Fuel-driven decimal rendering (most significant digit first); with
`fuel ≥ n` this renders all digits of `n` (empty for `n = 0`). -/
def digitsFuel : Nat → Nat → List Char
  | 0, _ => []
  | f + 1, n => if n == 0 then [] else digitsFuel f (n / 10) ++ [digitChar (n % 10)]

/-- Model of `fmt.Sprintf("%d", n)` for a nonnegative value. -/
def natRepr (n : Nat) : String :=
  if n == 0 then "0" else ⟨digitsFuel (n + 1) n⟩

/-- Model of `fmt.Sprintf("%02d", n)` for a positive value: zero-pad to width
two, longer numbers unchanged. -/
def pad2 (n : Nat) : String :=
  if n < 10 then "0" ++ natRepr n else natRepr n

/-! ## Item metadata (part_002: `SimpleItem` / `DetailedItem`) -/

/-- The metadata fields of `DetailedItem` consumed by the download and offline
subsystem (`SimpleItem` fields inlined). -/
structure DetailedItem where
  Name : String := ""
  Id : String := ""
  IsFolder : Bool := false
  ItemType : String := ""  -- Go field `Type`
  SeriesName : String := ""
  ParentIndexNumber : Int := 0
  IndexNumber : Int := 0
  ProductionYear : Int := 0
deriving DecidableEq, Repr

def DetailedItem.GetName (d : DetailedItem) : String := d.Name

def DetailedItem.GetYear (d : DetailedItem) : Int := d.ProductionYear

def DetailedItem.GetSeasonNumber (d : DetailedItem) : Int := d.ParentIndexNumber

def DetailedItem.GetEpisodeNumber (d : DetailedItem) : Int := d.IndexNumber

/-! ## Path resolver (`BuildVideoPath`, download.go:58-130)

The function returns the path parts relative to the downloads root (the Go
code joins them onto `GetDownloadsDir()` and creates parent directories;
directory creation is modelled in the filesystem section). -/

def BuildVideoPath (item : DetailedItem) : List String :=
  if item.ItemType == "Episode" && item.SeriesName != "" then
    let seriesName := sanitize item.SeriesName
    let parts := [seriesName]
    let parts :=
      if item.GetSeasonNumber > 0 then
        parts ++ ["Season " ++ pad2 item.GetSeasonNumber.toNat]
      else parts
    let fileName :=
      if item.GetSeasonNumber > 0 ∧ item.GetEpisodeNumber > 0 then
        "S" ++ pad2 item.GetSeasonNumber.toNat ++ "E" ++
          pad2 item.GetEpisodeNumber.toNat ++ " - " ++ sanitize item.GetName
      else sanitize item.GetName
    parts ++ [fileName ++ ".mkv"]
  else if item.ItemType == "Movie" then
    let movieName := sanitize item.GetName
    let movieName :=
      if item.GetYear > 0 then
        movieName ++ " (" ++ natRepr item.GetYear.toNat ++ ")"
      else movieName
    ["Movies", movieName ++ ".mkv"]
  else
    ["Other", sanitize item.GetName ++ ".mkv"]

/-- The path shape asserted by claim C1, following the spec wording: a
`Season <NN>` directory segment and `S<NN>E<NN> - ` marker when both numbers
are positive, and `<series>/<title>.mkv` in every other case. -/
def claimC1Path (item : DetailedItem) : List String :=
  if item.GetSeasonNumber > 0 ∧ item.GetEpisodeNumber > 0 then
    [sanitize item.SeriesName,
     "Season " ++ pad2 item.GetSeasonNumber.toNat,
     "S" ++ pad2 item.GetSeasonNumber.toNat ++ "E" ++
       pad2 item.GetEpisodeNumber.toNat ++ " - " ++ sanitize item.GetName ++ ".mkv"]
  else
    [sanitize item.SeriesName, sanitize item.GetName ++ ".mkv"]

/-! ## Sanitizer lemmas -/

/-- A string is clean when none of its characters is in the sanitizer's
illegal class. -/
def noIll (s : String) : Prop := ∀ c ∈ s.data, isIllegalChar c = false

theorem noIll_append {a b : String} (ha : noIll a) (hb : noIll b) :
    noIll (a ++ b) := by
  intro c hc
  rw [String.data_append] at hc
  rcases List.mem_append.1 hc with h | h
  · exact ha c h
  · exact hb c h

theorem mem_of_mem_trimSpace {c : Char} {l : List Char} (h : c ∈ trimSpace l) :
    c ∈ l := by
  unfold trimSpace at h
  rw [List.mem_reverse] at h
  have h2 := (List.dropWhile_sublist isWS).subset h
  rw [List.mem_reverse] at h2
  exact (List.dropWhile_sublist isWS).subset h2

theorem noIll_sanitize (s : String) : noIll (sanitize s) := by
  intro c hc
  have h1 : c ∈ (s.data.map fun c => if isIllegalChar c then '_' else c).take 100 :=
    mem_of_mem_trimSpace hc
  have h2 := List.mem_of_mem_take h1
  rcases List.mem_map.1 h2 with ⟨d, _, hd⟩
  by_cases hill : isIllegalChar d = true
  · rw [hill] at hd; simp at hd; rw [← hd]; decide
  · rw [eq_false_of_ne_true hill] at hd; simp at hd; rw [← hd]
    exact eq_false_of_ne_true hill

theorem sanitize_length_le (s : String) : (sanitize s).length ≤ 100 := by
  show (sanitizeChars s.data).length ≤ 100
  unfold sanitizeChars trimSpace
  rw [List.length_reverse]
  refine le_trans (List.dropWhile_sublist isWS).length_le ?_
  rw [List.length_reverse]
  refine le_trans (List.dropWhile_sublist isWS).length_le ?_
  have h := List.length_take 100 (s.data.map fun c => if isIllegalChar c then '_' else c)
  omega

theorem digitsFuel_chars {f n : Nat} {c : Char} (h : c ∈ digitsFuel f n) :
    ∃ d, d < 10 ∧ c = digitChar d := by
  induction f generalizing n with
  | zero => simp [digitsFuel] at h
  | succ f ih =>
      unfold digitsFuel at h
      by_cases h0 : n == 0
      · rw [if_pos h0] at h; simp at h
      · rw [if_neg h0] at h
        rcases List.mem_append.1 h with h1 | h1
        · exact ih h1
        · rcases List.mem_singleton.1 h1 with rfl
          exact ⟨n % 10, Nat.mod_lt _ (by decide), rfl⟩

theorem noIll_digitChar {d : Nat} (hd : d < 10) :
    isIllegalChar (digitChar d) = false := by
  interval_cases d <;> decide

theorem noIll_natRepr (n : Nat) : noIll (natRepr n) := by
  intro c hc
  unfold natRepr at hc
  by_cases h0 : n == 0
  · rw [if_pos h0] at hc
    rcases List.mem_singleton.1 hc with rfl
    decide
  · rw [if_neg h0] at hc
    rcases digitsFuel_chars hc with ⟨d, hd, rfl⟩
    exact noIll_digitChar hd

theorem noIll_pad2 (n : Nat) : noIll (pad2 n) := by
  unfold pad2
  by_cases h : n < 10
  · rw [if_pos h]
    exact noIll_append (by intro c hc; rcases List.mem_singleton.1 hc with rfl; decide)
      (noIll_natRepr n)
  · rw [if_neg h]; exact noIll_natRepr n

/-! ## Claim C1 -/

/-- C1 counterexample: an episode of series "Show" with season number 1 and
episode number 0 resolves to `Show/Season 01/Pilot.mkv` — the `Season 01`
directory segment is present although the episode number is not positive,
while the claim requires `Show/Pilot.mkv` (no Season segment) in that case. -/
theorem c1_counterexample :
    ¬ (BuildVideoPath { Name := "Pilot", ItemType := "Episode", SeriesName := "Show", ParentIndexNumber := 1, IndexNumber := 0 } =
      claimC1Path { Name := "Pilot", ItemType := "Episode", SeriesName := "Show", ParentIndexNumber := 1, IndexNumber := 0 }) := by
  decide

/-- C1 (amended): for an Episode with a non-empty series name the resolved
parts are `<series>` / optional `Season <NN>` / filename, where the Season
directory segment is present exactly when the season number is positive, and
the filename carries the `S<NN>E<NN> - ` marker exactly when both the season
and the episode number are positive; the extension is always `.mkv`. -/
theorem c1_amended (item : DetailedItem) (hT : item.ItemType = "Episode")
    (hS : item.SeriesName ≠ "") :
    BuildVideoPath item =
      [sanitize item.SeriesName]
      ++ (if item.GetSeasonNumber > 0 then
            ["Season " ++ pad2 item.GetSeasonNumber.toNat] else [])
      ++ [(if item.GetSeasonNumber > 0 ∧ item.GetEpisodeNumber > 0 then
            "S" ++ pad2 item.GetSeasonNumber.toNat ++ "E" ++
              pad2 item.GetEpisodeNumber.toNat ++ " - "
          else "") ++ sanitize item.GetName ++ ".mkv"] := by
  have hb : (item.ItemType == "Episode" && item.SeriesName != "") = true := by
    simp [hT, hS]
  unfold BuildVideoPath
  rw [hb]
  by_cases h1 : item.GetSeasonNumber > 0
  · by_cases h2 : item.GetEpisodeNumber > 0
    · simp [h1, h2]
    · simp [h1, h2]
  · have h3 : ¬(item.GetSeasonNumber > 0 ∧ item.GetEpisodeNumber > 0) := fun h => h1 h.1
    simp [h1, h3]

/-- C1 witness: the amended rule evaluated at a concrete episode. -/
theorem c1_amended_witness :
    BuildVideoPath { Name := "Pilot", ItemType := "Episode", SeriesName := "Show", ParentIndexNumber := 2, IndexNumber := 3 } =
      ["Show", "Season 02", "S02E03 - Pilot.mkv"] :=
  (c1_amended _ rfl (by decide)).trans (by decide)

/-! ## Claim C2 -/

/-- The per-segment property claim C2 asserts: no illegal character and at
most 100 characters, for every produced segment including the filename. -/
def claimC2 (item : DetailedItem) : Prop :=
  ∀ seg ∈ BuildVideoPath item, noIll seg ∧ seg.length ≤ 100

/-- C2 counterexample: an episode whose 90-character title passes the
sanitizer unchanged yields the filename segment
`S01E02 - <90 chars>.mkv` of length 103 > 100 — the claim's cap fails once
the `S<NN>E<NN> - ` marker and the `.mkv` extension are appended after
sanitization. -/
theorem c2_counterexample :
    ¬ claimC2 { Name := ⟨List.replicate 90 'a'⟩, ItemType := "Episode", SeriesName := "Show", ParentIndexNumber := 1, IndexNumber := 2 } := by
  intro h
  have := (h ("S01E02 - " ++ ⟨List.replicate 90 'a'⟩ ++ ".mkv") (by decide)).2
  revert this
  decide

/-- C2 (amended): every produced path segment is free of the illegal
characters `<>:"/\|?*`, and every sanitizer output is capped at 100
characters; the cap does not extend to the full filename segment, which may
exceed 100 characters once the episode marker, the year and the `.mkv`
extension are appended (see the C2 counterexample). -/
theorem c2_amended :
    (∀ item : DetailedItem, ∀ seg ∈ BuildVideoPath item, noIll seg)
    ∧ (∀ s : String, (sanitize s).length ≤ 100) := by
  constructor
  · intro item seg hseg
    have hlit : ∀ t : String,
        t = "Movies" ∨ t = "Other" ∨ t = "Season " ∨ t = "S" ∨ t = "E" ∨
        t = " - " ∨ t = ".mkv" ∨ t = " (" ∨ t = ")" ∨ t = "" → noIll t := by
      intro t ht
      rcases ht with rfl|rfl|rfl|rfl|rfl|rfl|rfl|rfl|rfl|rfl <;>
        · unfold noIll; decide
    unfold BuildVideoPath at hseg
    by_cases hE : (item.ItemType == "Episode" && item.SeriesName != "") = true
    · rw [hE] at hseg
      by_cases h1 : item.GetSeasonNumber > 0
      · by_cases h2 : item.GetEpisodeNumber > 0
        · simp [h1, h2] at hseg
          rcases hseg with rfl | rfl | rfl
          · exact noIll_sanitize _
          · exact noIll_append (hlit _ (by tauto)) (noIll_pad2 _)
          · exact noIll_append (noIll_append (noIll_append (noIll_append
              (noIll_append (noIll_append (hlit _ (by tauto)) (noIll_pad2 _))
                (hlit _ (by tauto))) (noIll_pad2 _)) (hlit _ (by tauto)))
              (noIll_sanitize _)) (hlit _ (by tauto))
        · simp [h1, h2] at hseg
          rcases hseg with rfl | rfl | rfl
          · exact noIll_sanitize _
          · exact noIll_append (hlit _ (by tauto)) (noIll_pad2 _)
          · exact noIll_append (noIll_sanitize _) (hlit _ (by tauto))
      · simp [h1] at hseg
        rcases hseg with rfl | rfl
        · exact noIll_sanitize _
        · exact noIll_append (noIll_sanitize _) (hlit _ (by tauto))
    · rw [eq_false_of_ne_true hE] at hseg
      by_cases hM : (item.ItemType == "Movie") = true
      · rw [hM] at hseg
        by_cases hY : item.GetYear > 0
        · simp [hY] at hseg
          rcases hseg with rfl | rfl
          · exact hlit _ (by tauto)
          · refine noIll_append ?_ (hlit _ (by tauto))
            refine noIll_append (noIll_append (noIll_append (noIll_sanitize _)
              (hlit _ (by tauto))) (noIll_natRepr _)) (hlit _ (by tauto))
        · simp [hY] at hseg
          rcases hseg with rfl | rfl
          · exact hlit _ (by tauto)
          · exact noIll_append (noIll_sanitize _) (hlit _ (by tauto))
      · rw [eq_false_of_ne_true hM] at hseg
        simp at hseg
        rcases hseg with rfl | rfl
        · exact hlit _ (by tauto)
        · exact noIll_append (noIll_sanitize _) (hlit _ (by tauto))
  · exact sanitize_length_le

/-- C2 witness: part one applied at a concrete episode segment, part two at a
concrete 150-character string. -/
theorem c2_amended_witness :
    noIll "S01E02 - Pilot.mkv" ∧ (sanitize ⟨List.replicate 150 'a'⟩).length ≤ 100 := by
  constructor
  · exact c2_amended.1 { Name := "Pilot", ItemType := "Episode", SeriesName := "Show", ParentIndexNumber := 1, IndexNumber := 2 } _ (by decide)
  · exact c2_amended.2 ⟨List.replicate 150 'a'⟩

/-! ## Filesystem model

A path is a list of segments from the filesystem root.  The state lists the
existing regular files and the existing directories.  `os.Remove` on a
directory succeeds only when the directory exists and has no entry below it;
on a file it succeeds when the file exists. -/

abbrev FPath := List String

structure FSState where
  files : List FPath
  dirs : List FPath
deriving DecidableEq, Repr

/-- Predicate `hasPre d q`: the path `q` lies at or below the directory path `d`
(segment-wise: `d` is a leading segment sequence of `q`). -/
def hasPre : FPath → FPath → Bool
  | [], _ => true
  | _ :: _, [] => false
  | x :: xs, y :: ys => x == y && hasPre xs ys

/-- Predicate `strictlyUnder d q`: `q` is strictly below directory `d`. -/
def strictlyUnder (d q : FPath) : Bool := hasPre d q && q != d

/-- A directory is empty when no file and no other directory lies strictly
below it. -/
def isEmptyDir (fs : FSState) (d : FPath) : Bool :=
  fs.files.all (fun f => !(strictlyUnder d f)) &&
  fs.dirs.all (fun e => !(strictlyUnder d e))

/-- Model of `os.Remove` on a directory: succeeds only for an existing empty
directory (`none` models the error that breaks the cleanup loop). -/
def removeDirFS (fs : FSState) (d : FPath) : Option FSState :=
  if fs.dirs.contains d && isEmptyDir fs d then
    some { fs with dirs := fs.dirs.erase d }
  else none

/-- The ancestor-cleanup loop of `RemoveDownload` (download.go:260-267), with
the walked path passed reversed (deepest segment first) so that the recursion
is structural: at each step try `os.Remove(parentDir)`, stop on the first
failure, else continue with the parent; the loop guard
`parentDir != filepath.Dir(parentDir)` stops at the filesystem root. -/
def cleanupRev : FSState → List String → FSState
  | fs, [] => fs
  | fs, s :: rest =>
      match removeDirFS fs ((s :: rest).reverse) with
      | none => fs
      | some fs2 => cleanupRev fs2 rest

/-- Model of `RemoveDownload` (download.go:246-270): delete the file at the resolved
path (error when absent), then walk upward deleting empty parent
directories. -/
def RemoveDownload (fs : FSState) (filePath : FPath) : Option FSState :=
  if fs.files.contains filePath then
    let fs1 : FSState := { fs with files := fs.files.erase filePath }
    some (cleanupRev fs1 filePath.dropLast.reverse)
  else none

theorem cleanupRev_files (l : List String) :
    ∀ fs : FSState, (cleanupRev fs l).files = fs.files := by
  induction l with
  | nil => intro fs; rfl
  | cons s rest ih =>
      intro fs
      unfold cleanupRev
      cases h : removeDirFS fs ((s :: rest).reverse) with
      | none => rfl
      | some fs2 =>
          rw [ih fs2]
          unfold removeDirFS at h
          by_cases hc : (fs.dirs.contains ((s :: rest).reverse) &&
              isEmptyDir fs ((s :: rest).reverse)) = true
          · rw [if_pos hc] at h
            cases h
            rfl
          · rw [if_neg hc] at h; cases h

theorem removeDirFS_dirs {fs fs2 : FSState} {d : FPath}
    (h : removeDirFS fs d = some fs2) :
    fs2.dirs = fs.dirs.erase d ∧ fs2.files = fs.files ∧
      fs.dirs.contains d = true ∧ isEmptyDir fs d = true := by
  unfold removeDirFS at h
  by_cases hc : (fs.dirs.contains d && isEmptyDir fs d) = true
  · rw [if_pos hc] at h
    cases h
    rcases Bool.and_eq_true_iff.1 hc with ⟨h1, h2⟩
    exact ⟨rfl, rfl, h1, h2⟩
  · rw [if_neg hc] at h; cases h

theorem cleanupRev_dirs_sub (l : List String) :
    ∀ (fs : FSState) (d : FPath), d ∈ (cleanupRev fs l).dirs → d ∈ fs.dirs := by
  induction l with
  | nil => intro fs d h; exact h
  | cons s rest ih =>
      intro fs d h
      unfold cleanupRev at h
      cases hr : removeDirFS fs ((s :: rest).reverse) with
      | none => rw [hr] at h; exact h
      | some fs2 =>
          rw [hr] at h
          have h2 := ih fs2 d h
          rw [(removeDirFS_dirs hr).1] at h2
          exact List.mem_of_mem_erase h2

theorem hasPre_refl (d : FPath) : hasPre d d = true := by
  induction d with
  | nil => rfl
  | cons x xs ih => unfold hasPre; rw [ih]; simp

theorem hasPre_append_self (xs ys : List String) : hasPre xs (xs ++ ys) = true := by
  induction xs with
  | nil => rfl
  | cons x t ih => simp [hasPre, ih]

theorem hasPre_trans {a b c : FPath} (h1 : hasPre a b = true)
    (h2 : hasPre b c = true) : hasPre a c = true := by
  induction a generalizing b c with
  | nil => rfl
  | cons x xs ih =>
      cases b with
      | nil => exact absurd h1 (by simp [hasPre])
      | cons y ys =>
          cases c with
          | nil => exact absurd h2 (by simp [hasPre])
          | cons z zs =>
              unfold hasPre at h1 h2 ⊢
              rcases Bool.and_eq_true_iff.1 h1 with ⟨hxy, hxs⟩
              rcases Bool.and_eq_true_iff.1 h2 with ⟨hyz, hys⟩
              rw [eq_of_beq hxy, eq_of_beq hyz]
              simp only [beq_self_eq_true, Bool.true_and]
              exact ih hxs hys

theorem isEmptyDir_no_file {fs : FSState} {d f : FPath}
    (h : isEmptyDir fs d = true) (hf : f ∈ fs.files) :
    strictlyUnder d f = false := by
  unfold isEmptyDir at h
  rcases Bool.and_eq_true_iff.1 h with ⟨h1, _⟩
  have := List.all_eq_true.1 h1 f hf
  simpa using this

theorem isEmptyDir_no_dir {fs : FSState} {d e : FPath}
    (h : isEmptyDir fs d = true) (he : e ∈ fs.dirs) :
    strictlyUnder d e = false := by
  unfold isEmptyDir at h
  rcases Bool.and_eq_true_iff.1 h with ⟨_, h2⟩
  have := List.all_eq_true.1 h2 e he
  simpa using this

theorem cleanupRev_keeps_file_dir (l : List String) :
    ∀ (fs : FSState) (d f : FPath), d ∈ fs.dirs → f ∈ fs.files →
      strictlyUnder d f = true → d ∈ (cleanupRev fs l).dirs := by
  induction l with
  | nil => intro fs d f hd _ _; exact hd
  | cons s rest ih =>
      intro fs d f hd hf hu
      unfold cleanupRev
      cases hr : removeDirFS fs ((s :: rest).reverse) with
      | none => exact hd
      | some fs2 =>
          rcases removeDirFS_dirs hr with ⟨hdirs, hfiles, _, hempty⟩
          have hne : d ≠ (s :: rest).reverse := by
            intro heq
            rw [heq] at hu
            rw [isEmptyDir_no_file hempty hf] at hu
            cases hu
          refine ih fs2 d f ?_ ?_ hu
          · rw [hdirs]; exact (List.mem_erase_of_ne hne).2 hd
          · rw [hfiles]; exact hf

theorem cleanupRev_keeps_parent_of_kept (l : List String) :
    ∀ (fs : FSState) (d e : FPath), d ∈ fs.dirs → strictlyUnder d e = true →
      e ∈ (cleanupRev fs l).dirs → d ∈ (cleanupRev fs l).dirs := by
  induction l with
  | nil => intro fs d e hd _ _; exact hd
  | cons s rest ih =>
      intro fs d e hd hu he
      unfold cleanupRev at he ⊢
      cases hr : removeDirFS fs ((s :: rest).reverse) with
      | none => exact hd
      | some fs2 =>
          rw [hr] at he
          rcases removeDirFS_dirs hr with ⟨hdirs, _, _, hempty⟩
          have heFs : e ∈ fs.dirs := by
            have := cleanupRev_dirs_sub rest fs2 e he
            rw [hdirs] at this
            exact List.mem_of_mem_erase this
          have hne : d ≠ (s :: rest).reverse := by
            intro heq
            rw [heq] at hu
            rw [isEmptyDir_no_dir hempty heFs] at hu
            cases hu
          refine ih fs2 d e ?_ hu he
          rw [hdirs]; exact (List.mem_erase_of_ne hne).2 hd

theorem cleanupRev_removed_ancestor (l : List String) :
    ∀ (fs : FSState) (d : FPath), d ∈ fs.dirs → d ∉ (cleanupRev fs l).dirs →
      hasPre d l.reverse = true := by
  induction l with
  | nil => intro fs d hd hnd; exact absurd hd hnd
  | cons s rest ih =>
      intro fs d hd hnd
      unfold cleanupRev at hnd
      cases hr : removeDirFS fs ((s :: rest).reverse) with
      | none => rw [hr] at hnd; exact absurd hd hnd
      | some fs2 =>
          rw [hr] at hnd
          rcases removeDirFS_dirs hr with ⟨hdirs, _, _, _⟩
          by_cases heq : d = (s :: rest).reverse
          · rw [heq]; exact hasPre_refl _
          · have hd2 : d ∈ fs2.dirs := by
              rw [hdirs]; exact (List.mem_erase_of_ne heq).2 hd
            have hpre := ih fs2 d hd2 hnd
            refine hasPre_trans hpre ?_
            rw [List.reverse_cons]
            exact hasPre_append_self _ _

/-! ## Claim C3 -/

/-- C3 counterexample: with the storage root `cfg/jtui/downloads` holding the
single file `Other/m.mkv`, removing that download deletes `Other`, then the
storage root itself, then every now-empty directory above it — the walk stops
only at the filesystem root, so the claim that no directory at or above the
storage root is ever removed fails. -/
theorem c3_counterexample :
    ¬ (∀ fs2 : FSState,
        RemoveDownload
          ⟨[["cfg", "jtui", "downloads", "Other", "m.mkv"]],
           [["cfg"], ["cfg", "jtui"], ["cfg", "jtui", "downloads"],
            ["cfg", "jtui", "downloads", "Other"]]⟩
          ["cfg", "jtui", "downloads", "Other", "m.mkv"] = some fs2 →
        ["cfg", "jtui", "downloads"] ∈ fs2.dirs) := by
  intro h
  exact absurd (h ⟨[], []⟩ (by decide)) (by decide)

/-- C3 (amended): after a successful Remove, (1) exactly the removed file is
gone from the file set, (2) no directory is created, (3) every removed
directory is an ancestor (at or above the parent) of the removed file — the
walk only ever deletes upward along that chain, stopping at the filesystem
root rather than the storage root, (4) a directory still containing another
file is never removed, and (5) a directory with a surviving subdirectory is
never removed (the walk stops at the first non-empty directory). -/
theorem c3_amended (fs fs2 : FSState) (p : FPath)
    (h : RemoveDownload fs p = some fs2) :
    fs2.files = fs.files.erase p
    ∧ (∀ d, d ∈ fs2.dirs → d ∈ fs.dirs)
    ∧ (∀ d, d ∈ fs.dirs → d ∉ fs2.dirs → hasPre d p.dropLast = true)
    ∧ (∀ d f, d ∈ fs.dirs → f ∈ fs.files.erase p → strictlyUnder d f = true →
        d ∈ fs2.dirs)
    ∧ (∀ d e, d ∈ fs.dirs → strictlyUnder d e = true → e ∈ fs2.dirs →
        d ∈ fs2.dirs) := by
  unfold RemoveDownload at h
  by_cases hc : fs.files.contains p = true
  · rw [if_pos hc] at h
    cases h
    refine ⟨cleanupRev_files _ _, ?_, ?_, ?_, ?_⟩
    · intro d hd
      exact cleanupRev_dirs_sub p.dropLast.reverse
        ⟨fs.files.erase p, fs.dirs⟩ d hd
    · intro d hd hnd
      have := cleanupRev_removed_ancestor p.dropLast.reverse
        ⟨fs.files.erase p, fs.dirs⟩ d hd hnd
      rwa [List.reverse_reverse] at this
    · intro d f hd hf hu
      exact cleanupRev_keeps_file_dir p.dropLast.reverse
        ⟨fs.files.erase p, fs.dirs⟩ d f hd hf hu
    · intro d e hd hu he
      exact cleanupRev_keeps_parent_of_kept p.dropLast.reverse
        ⟨fs.files.erase p, fs.dirs⟩ d e hd hu he
  · rw [if_neg hc] at h; cases h

/-- C3 witness: the amended theorem applied to a two-file store — removing
`Show/Season 01/a.mkv` keeps the directory `Show` (it still contains
`Show/b.mkv`) while deleting `Show/Season 01`. -/
theorem c3_amended_witness :
    RemoveDownload
        ⟨[["root", "Show", "Season 01", "a.mkv"], ["root", "Show", "b.mkv"]],
         [["root"], ["root", "Show"], ["root", "Show", "Season 01"]]⟩
        ["root", "Show", "Season 01", "a.mkv"] =
      some ⟨[["root", "Show", "b.mkv"]], [["root"], ["root", "Show"]]⟩
    ∧ ["root", "Show"] ∈
        (⟨[["root", "Show", "b.mkv"]], [["root"], ["root", "Show"]]⟩ : FSState).dirs := by
  refine ⟨by decide, ?_⟩
  have h := c3_amended
    ⟨[["root", "Show", "Season 01", "a.mkv"], ["root", "Show", "b.mkv"]],
     [["root"], ["root", "Show"], ["root", "Show", "Season 01"]]⟩
    ⟨[["root", "Show", "b.mkv"]], [["root"], ["root", "Show"]]⟩
    ["root", "Show", "Season 01", "a.mkv"] (by decide)
  exact h.2.2.2.1 ["root", "Show"] ["root", "Show", "b.mkv"]
    (by decide) (by decide) (by decide)

/-! ## Client configuration and mode selection
(part_001: `IsAuthenticated`; part_003: `ConnectFromConfig`,
`CreateOfflineClient`, `IsOfflineMode`) -/

/-- The configuration fields relevant to authentication and offline mode. -/
structure Config where
  ServerURL : String := ""
  ClientName : String := ""
  AccessToken : String := ""
  UserID : String := ""
deriving DecidableEq, Repr

/-- part_001:106-108: both credentials must be non-empty. -/
def IsAuthenticated (c : Config) : Bool :=
  c.AccessToken != "" && c.UserID != ""

/-- part_003:151-153: both credentials empty. -/
def IsOfflineMode (c : Config) : Bool :=
  c.AccessToken == "" && c.UserID == ""

inductive ConnectErr where
  | noServerURL
  | discoverFailed
  | noContent
deriving DecidableEq, Repr

/-- Model of `CreateOfflineClient` (part_003:126-148).  The offline catalog scan is
passed as data: `none` models a `DiscoverOfflineContent` error, `some items`
its result.  The constructed client carries no access token and no user id
(the code comment: indicates offline mode). -/
def CreateOfflineClient (serverURL : String)
    (discovered : Option (List DetailedItem)) : Except ConnectErr Config :=
  match discovered with
  | none => .error .discoverFailed
  | some items =>
      if items.length == 0 then .error .noContent
      else .ok { ServerURL := serverURL, ClientName := "jtui-offline",
                 AccessToken := "", UserID := "" }

/-- Model of `ConnectFromConfig` (part_003:106-123).  `connectResult` abstracts
`NewClientBuilder().WithServerURL(u).BuildAndConnect()`: `some client` on
success, `none` on any connection/authentication failure, in which case the
code falls back to `CreateOfflineClient`. -/
def ConnectFromConfig (serverURL : String) (connectResult : Option Config)
    (discovered : Option (List DetailedItem)) : Except ConnectErr Config :=
  if serverURL == "" then .error .noServerURL
  else
    match connectResult with
    | some client => .ok client
    | none => CreateOfflineClient serverURL discovered

/-! ## Download lifecycle (`IsDownloaded`, `DownloadVideo`, download.go) -/

/-- Model of `os.Stat`: it succeeds at a path that exists as a file or as a directory. -/
def statExists (fs : FSState) (p : FPath) : Bool :=
  fs.files.contains p || fs.dirs.contains p

/-- Model of `IsDownloaded` (download.go:133-144): checks `os.Stat` at the resolved
path (path resolution is `BuildVideoPath`; here the resolved path is the
argument). -/
def IsDownloaded (fs : FSState) (p : FPath) : Bool := statExists fs p

/-- Model of `os.MkdirAll`: create the directory and all its ancestors (the nonempty
leading segment sequences), keeping existing entries. -/
def mkdirAll (fs : FSState) (d : FPath) : FSState :=
  { fs with
    dirs := (d.inits.filter (fun q => !q.isEmpty)).foldl
      (fun acc q => if acc.contains q then acc else acc ++ [q]) fs.dirs }

/-- The temp path `filePath + ".tmp"`: the suffix is appended to the last
segment. -/
def tmpOf : FPath → FPath
  | [] => []
  | [x] => [x ++ ".tmp"]
  | x :: rest => x :: tmpOf rest

inductive DownloadErr where
  | notAuthenticated
  | alreadyExists
  | downloadFailed
  | renameFailed
deriving DecidableEq, Repr

/-- Model of `DownloadVideo` (download.go:147-235) on the filesystem state, for an
already-resolved target path `p`.  `fetchOk` aggregates URL resolution, the
HTTP round-trip and the chunked copy (their error paths leave no net
filesystem change beyond the directories `BuildVideoPath` created: the temp
file, when created, is deleted on every failure); `renameOk` models the final
`os.Rename`.  Order as in the code: authentication guard, already-downloaded
guard (whose `BuildVideoPath` call runs `os.MkdirAll` on the parent), fetch
into `p + ".tmp"`, atomic rename to `p`. -/
def DownloadVideo (cfg : Config) (fs : FSState) (p : FPath)
    (fetchOk renameOk : Bool) : Except DownloadErr Unit × FSState :=
  if !(IsAuthenticated cfg) then (.error .notAuthenticated, fs)
  else
    let fs0 := mkdirAll fs p.dropLast
    if IsDownloaded fs0 p then (.error .alreadyExists, fs0)
    else
      let tp := tmpOf p
      let fs1 : FSState :=
        if fs0.files.contains tp then fs0
        else { fs0 with files := fs0.files ++ [tp] }
      if !fetchOk then
        (.error .downloadFailed, { fs1 with files := fs1.files.erase tp })
      else if renameOk then
        (.ok (), { fs1 with files := fs1.files.erase tp ++ [p] })
      else
        (.error .renameFailed, { fs1 with files := fs1.files.erase tp })

/-! ## Claim C4 -/

/-- C4: a successful `DownloadVideo` leaves the target path present
(`IsDownloaded` true after the temp-file rename), and a successful
`RemoveDownload` leaves it absent (`IsDownloaded` false) — for any filesystem
whose file list has no duplicate paths and where the target is not also a
directory. -/
theorem c4_roundtrip :
    (∀ (cfg : Config) (fs : FSState) (p : FPath) (fOk rOk : Bool)
        (fs2 : FSState), DownloadVideo cfg fs p fOk rOk = (.ok (), fs2) →
        IsDownloaded fs2 p = true)
    ∧ (∀ (fs : FSState) (p : FPath) (fs2 : FSState),
        RemoveDownload fs p = some fs2 → fs.files.Nodup → p ∉ fs.dirs →
        IsDownloaded fs2 p = false) := by
  constructor
  · intro cfg fs p fOk rOk fs2 h
    unfold DownloadVideo at h
    dsimp only at h
    repeat' split at h
    all_goals rw [Prod.mk.injEq] at h
    all_goals obtain ⟨h1, rfl⟩ := h
    all_goals cases h1
    all_goals simp [IsDownloaded, statExists]
  · intro fs p fs2 h hnd hpd
    unfold RemoveDownload at h
    split at h
    · cases h
      have hfiles := cleanupRev_files p.dropLast.reverse
        ⟨fs.files.erase p, fs.dirs⟩
      have hnf : p ∉ (cleanupRev ⟨fs.files.erase p, fs.dirs⟩
          p.dropLast.reverse).files := by
        rw [hfiles]
        exact hnd.not_mem_erase
      have hndir : p ∉ (cleanupRev ⟨fs.files.erase p, fs.dirs⟩
          p.dropLast.reverse).dirs := by
        intro hmem
        exact hpd (cleanupRev_dirs_sub p.dropLast.reverse
          ⟨fs.files.erase p, fs.dirs⟩ p hmem)
      simp [IsDownloaded, statExists, hnf, hndir]
    · cases h

/-- C4 witness: downloading `root/Movies/m.mkv` on an empty store yields a
store where it is downloaded; removing it again yields one where it is
not. -/
theorem c4_roundtrip_witness :
    IsDownloaded ⟨[["root", "Movies", "m.mkv"]], [["root"], ["root", "Movies"]]⟩
        ["root", "Movies", "m.mkv"] = true
    ∧ IsDownloaded ⟨[], []⟩ ["root", "Movies", "m.mkv"] = false := by
  constructor
  · exact c4_roundtrip.1 ⟨"srv", "jtui", "t", "u"⟩ ⟨[], []⟩
      ["root", "Movies", "m.mkv"] true true _ rfl
  · exact c4_roundtrip.2
      ⟨[["root", "Movies", "m.mkv"]], [["root"], ["root", "Movies"]]⟩
      ["root", "Movies", "m.mkv"] ⟨[], []⟩ (by decide) (by decide) (by decide)

/-! ## Claim C5 -/

/-- C5: when the remote connection/authentication fails (`connectResult`
is `none`), client construction succeeds — necessarily in offline mode —
exactly when the offline scan returned at least one entry; an empty scan
yields the no-content error. -/
theorem c5_offline_fallback (url : String)
    (disc : Option (List DetailedItem)) (hurl : url ≠ "") :
    ((∃ c, ConnectFromConfig url none disc = .ok c ∧ IsOfflineMode c = true) ↔
      (∃ l, disc = some l ∧ 1 ≤ l.length))
    ∧ (disc = some [] → ConnectFromConfig url none disc = .error .noContent) := by
  have hu : (url == "") = false := by simpa using hurl
  unfold ConnectFromConfig CreateOfflineClient
  rw [hu]
  cases disc with
  | none => simp
  | some items =>
      cases items with
      | nil => simp
      | cons a t =>
          simp only [Bool.false_eq_true, if_false]
          constructor
          · constructor
            · intro _
              exact ⟨a :: t, rfl, by simp⟩
            · intro _
              exact ⟨⟨url, "jtui-offline", "", ""⟩, rfl, rfl⟩
          · intro hcontra
            cases hcontra

/-- C5 witness: a one-movie catalog constructs an offline client; the empty
catalog yields the no-content error. -/
theorem c5_offline_fallback_witness :
    (∃ c, ConnectFromConfig "http://srv" none
        (some [{ Name := "M", ItemType := "Movie" }]) = .ok c ∧
        IsOfflineMode c = true)
    ∧ ConnectFromConfig "http://srv" none (some []) = .error .noContent := by
  constructor
  · exact (c5_offline_fallback "http://srv"
      (some [{ Name := "M", ItemType := "Movie" }]) (by decide)).1.2
      ⟨[{ Name := "M", ItemType := "Movie" }], rfl, by decide⟩
  · exact (c5_offline_fallback "http://srv" (some []) (by decide)).2 rfl

/-! ## Claim C10 -/

/-- C10: `DownloadVideo` fails immediately with the not-authenticated error
and leaves the filesystem untouched whenever a credential is missing; an
offline client constructed by `CreateOfflineClient` has empty credentials,
hence is never authenticated and can never download. -/
theorem c10_offline_no_download :
    (∀ (cfg : Config) (fs : FSState) (p : FPath) (fOk rOk : Bool),
        IsAuthenticated cfg = false →
        DownloadVideo cfg fs p fOk rOk = (.error .notAuthenticated, fs))
    ∧ (∀ (url : String) (disc : Option (List DetailedItem)) (c : Config),
        CreateOfflineClient url disc = .ok c →
        IsOfflineMode c = true ∧ IsAuthenticated c = false)
    ∧ (∀ c : Config, IsOfflineMode c = true → IsAuthenticated c = false) := by
  refine ⟨?_, ?_, ?_⟩
  · intro cfg fs p fOk rOk hA
    unfold DownloadVideo
    rw [hA]
    rfl
  · intro url disc c h
    unfold CreateOfflineClient at h
    cases disc with
    | none => cases h
    | some items =>
        dsimp only at h
        by_cases hl : (items.length == 0) = true
        · rw [if_pos hl] at h; cases h
        · rw [if_neg hl] at h
          cases h
          exact ⟨rfl, rfl⟩
  · intro c h
    simp [IsOfflineMode] at h
    simp [IsAuthenticated, h.1]

/-- C10 witness: the offline configuration cannot download. -/
theorem c10_offline_no_download_witness :
    DownloadVideo ⟨"srv", "jtui-offline", "", ""⟩ ⟨[], []⟩ ["root", "m.mkv"]
        true true = (.error .notAuthenticated, ⟨[], []⟩) :=
  c10_offline_no_download.1 ⟨"srv", "jtui-offline", "", ""⟩ ⟨[], []⟩
    ["root", "m.mkv"] true true (by decide)

/-! ## Player process tracking (part_005: `runningMpvProcesses`,
`playItem`, `CleanupMpvProcesses`)

Processes are identified by numbers.  `tracked` models the global
`runningMpvProcesses` slice; `killed` records every process on which
`cmd.Process.Kill()` has been called. -/

structure PlayerState where
  tracked : List Nat
  killed : List Nat
deriving DecidableEq, Repr

/-- Model of `CleanupMpvProcesses` (part_005:2598-2610): kill every tracked process
and clear the tracking list. -/
def CleanupMpvProcesses (s : PlayerState) : PlayerState :=
  { tracked := [], killed := s.killed ++ s.tracked }

/-- The tracking effect of `playItem` (part_005:1015-1067): when the tracking
list is non-empty run `CleanupMpvProcesses`, then spawn the new player and
append it to the tracking list. -/
def playItem (s : PlayerState) (p : Nat) : PlayerState :=
  let s1 := if s.tracked.length > 0 then CleanupMpvProcesses s else s
  { s1 with tracked := s1.tracked ++ [p] }

/-- The supervisor's exit handler (part_005:1108-1114): remove the exited
process from the tracking list. -/
def mpvExit (s : PlayerState) (p : Nat) : PlayerState :=
  { s with tracked := s.tracked.erase p }

/-- States reachable from the initial empty tracking state by play commands,
process exits and cleanups. -/
inductive ReachableP : PlayerState → Prop
  | init : ReachableP ⟨[], []⟩
  | play (s : PlayerState) (p : Nat) : ReachableP s → ReachableP (playItem s p)
  | exits (s : PlayerState) (p : Nat) : ReachableP s → ReachableP (mpvExit s p)
  | cleanup (s : PlayerState) : ReachableP s → ReachableP (CleanupMpvProcesses s)

/-! ## Claim C9 -/

/-- C9: in every reachable state at most one player process is tracked; a
play command kills every still-tracked process and leaves exactly the new
one tracked; playing A then B from any state leaves exactly B tracked with A
killed. -/
theorem c9_single_playback :
    (∀ s : PlayerState, ReachableP s → s.tracked.length ≤ 1)
    ∧ (∀ (s : PlayerState) (p : Nat), (playItem s p).tracked = [p]
        ∧ ∀ q ∈ s.tracked, q ∈ (playItem s p).killed)
    ∧ (∀ (s : PlayerState) (a b : Nat),
        (playItem (playItem s a) b).tracked = [b]
        ∧ a ∈ (playItem (playItem s a) b).killed) := by
  have hplay : ∀ (s : PlayerState) (p : Nat), (playItem s p).tracked = [p]
      ∧ ∀ q ∈ s.tracked, q ∈ (playItem s p).killed := by
    intro s p
    unfold playItem CleanupMpvProcesses
    cases htr : s.tracked with
    | nil => simp [htr]
    | cons x rest =>
        simp only [htr]
        constructor
        · simp
        · intro q hq
          simp
          rcases List.mem_cons.1 hq with h | h
          · exact Or.inr (Or.inl h)
          · exact Or.inr (Or.inr h)
  refine ⟨?_, hplay, ?_⟩
  · intro s hs
    induction hs with
    | init => decide
    | play s p _ _ => rw [(hplay s p).1]; simp
    | exits s p _ ih =>
        refine le_trans ?_ ih
        exact (List.erase_sublist p s.tracked).length_le
    | cleanup s _ _ => simp [CleanupMpvProcesses]
  · intro s a b
    refine ⟨(hplay (playItem s a) b).1, ?_⟩
    refine (hplay (playItem s a) b).2 a ?_
    rw [(hplay s a).1]
    exact List.mem_singleton.2 rfl

/-- C9 witness: the invariant at the concrete reachable state obtained by
playing process 7 from the initial state, and the A-then-B scenario at
processes 1 and 2. -/
theorem c9_single_playback_witness :
    (playItem ⟨[], []⟩ 7).tracked.length ≤ 1
    ∧ (playItem (playItem ⟨[], []⟩ 1) 2).tracked = [2]
    ∧ 1 ∈ (playItem (playItem ⟨[], []⟩ 1) 2).killed := by
  refine ⟨?_, (c9_single_playback.2.2 ⟨[], []⟩ 1 2).1,
    (c9_single_playback.2.2 ⟨[], []⟩ 1 2).2⟩
  exact c9_single_playback.1 _ (ReachableP.play _ 7 ReachableP.init)

/-! ## Playback status poll (`checkMpvStatus`, part_005:1531-1597) -/

/-- The decision core of `checkMpvStatus` once the IPC socket answered:
`pauseOk`/`isPaused` are the type-assertion result on the pause query
response, `position`/`duration` the retried position and duration values.
Returns `(position, duration, videoIsPlaying)` with the code's rule
`(!isPaused && pauseOk) || (position > 0 || duration > 0)`. -/
def checkMpvStatus (pauseOk isPaused : Bool) (position duration : ℚ) :
    ℚ × ℚ × Bool :=
  (position, duration,
    (!isPaused && pauseOk) || (decide (position > 0) || decide (duration > 0)))

/-- The playing rule asserted by claim C6 (spec wording): pause-state query
succeeded returning false, OR the pause-state query failed but a non-zero
position/duration was obtained. -/
def claimC6Playing (pauseOk isPaused : Bool) (position duration : ℚ) : Bool :=
  (pauseOk && !isPaused) ||
    (!pauseOk && (decide (position > 0) || decide (duration > 0)))

/-! ## Claim C6 -/

/-- C6 counterexample: a player whose pause query succeeds returning
paused=true while position=120 and duration=200 are obtained is reported as
playing by the code (the position/duration disjunct is not restricted to a
failed pause query), whereas the claim's rule reports not playing. -/
theorem c6_counterexample :
    (checkMpvStatus true true 120 200).2.2 = true
    ∧ claimC6Playing true true 120 200 = false := by
  constructor
  · norm_num [checkMpvStatus]
  · norm_num [claimC6Playing]

/-- C6 (amended): the poll reports the queried position and duration, and
reports playing exactly when the pause query succeeded returning false OR a
non-zero position or duration was obtained (whether or not the pause query
succeeded); in particular pause=false, 120/200 reports (120, 200, playing)
and pause=true with zero position and duration reports not playing. -/
theorem c6_amended :
    (∀ (pauseOk isPaused : Bool) (pos dur : ℚ),
        (checkMpvStatus pauseOk isPaused pos dur).1 = pos
        ∧ (checkMpvStatus pauseOk isPaused pos dur).2.1 = dur
        ∧ ((checkMpvStatus pauseOk isPaused pos dur).2.2 = true ↔
            ((pauseOk = true ∧ isPaused = false) ∨ 0 < pos ∨ 0 < dur)))
    ∧ checkMpvStatus true false 120 200 = (120, 200, true)
    ∧ checkMpvStatus true true 0 0 = (0, 0, false) := by
  refine ⟨?_, ?_, ?_⟩
  · intro pauseOk isPaused pos dur
    refine ⟨rfl, rfl, ?_⟩
    cases pauseOk <;> cases isPaused <;>
      simp [checkMpvStatus, decide_eq_true_eq]
  · norm_num [checkMpvStatus]
  · norm_num [checkMpvStatus]

/-! ## Completion handling (`playItem` exit path, part_005:1116-1147) -/

/-- Whether the supervisor's exit path calls `MarkWatched`: guarded by a
positive final position, a positive final duration, the 90% completion
threshold `position / duration * 100 >= 90`, and — for local content — the
authentication check. -/
def completionMarksWatched (isLocal authed : Bool)
    (finalPosition finalDuration : ℚ) : Bool :=
  if finalPosition > 0 then
    if finalDuration > 0 then
      if finalPosition / finalDuration * 100 ≥ 90 then
        if isLocal then authed else true
      else false
    else false
  else false

/-! ## Claim C7 -/

/-- C7: with positive final position and duration, the item is marked watched
iff position/duration ≥ 0.90 and (for local content) credentials are present;
190/200 marks watched, 50/200 does not. -/
theorem c7_watched_threshold :
    (∀ (isLocal authed : Bool) (pos dur : ℚ), 0 < pos → 0 < dur →
        (completionMarksWatched isLocal authed pos dur = true ↔
          (9 / 10 ≤ pos / dur ∧ (isLocal = true → authed = true))))
    ∧ completionMarksWatched false true 190 200 = true
    ∧ completionMarksWatched false true 50 200 = false := by
  refine ⟨?_, ?_, ?_⟩
  · intro isLocal authed pos dur hpos hdur
    have hthr : (pos / dur * 100 ≥ 90) ↔ (9 / 10 ≤ pos / dur) := by
      constructor <;> intro h <;> linarith
    unfold completionMarksWatched
    rw [if_pos hpos, if_pos hdur]
    by_cases hc : pos / dur * 100 ≥ 90
    · rw [if_pos hc]
      cases isLocal <;> cases authed <;> simp_all
    · rw [if_neg hc]
      rw [hthr] at hc
      simp [hc]
  · norm_num [completionMarksWatched]
  · norm_num [completionMarksWatched]

/-- C7 witness: the threshold rule applied at 190/200 (remote content) and
50/200. -/
theorem c7_watched_threshold_witness :
    completionMarksWatched false true 190 200 = true
    ∧ completionMarksWatched false true 50 200 = false := by
  constructor
  · rw [(c7_watched_threshold.1 false true 190 200 (by norm_num) (by norm_num))]
    norm_num
  · have h := (c7_watched_threshold.1 false true 50 200 (by norm_num) (by norm_num))
    rw [Bool.eq_false_iff]
    intro hcontra
    have := h.1 hcontra
    norm_num at this

/-! ## Offline catalog parsing (download.go:319-555)

The scan walks the downloads root; each file is given by the directory
segments of its relative path (`filepath.Dir` split on the separator) and
its base name. -/

/-- Predicate `leads pat l`: `l` begins with `pat` (model of `strings.HasPre` + `fix`
test on character lists). -/
def leads : List Char → List Char → Bool
  | [], _ => true
  | _ :: _, [] => false
  | x :: xs, y :: ys => x == y && leads xs ys

/-- Predicate `trails pat l`: `l` ends with `pat`. -/
def trails (pat l : List Char) : Bool := leads pat.reverse l.reverse

/-- Model of `strings.TrimSuffix s suf`. -/
def trimSuffix (s suf : String) : String :=
  if trails suf.data s.data then ⟨s.data.take (s.data.length - suf.data.length)⟩
  else s

/-- Model of `strings.ToLower` (ASCII letters; the paths produced by the
resolver and compared against `.mkv` are ASCII). -/
def toLowerStr (s : String) : String := ⟨s.data.map Char.toLower⟩

/-- Whether the 6-character window of `l` at `i` matches the movie-year regex
`\((\d{4})\)`. -/
def tokAt (l : List Char) (i : Nat) : Bool :=
  l[i]? == some '(' &&
  (l[i+1]?.elim false Char.isDigit) &&
  (l[i+2]?.elim false Char.isDigit) &&
  (l[i+3]?.elim false Char.isDigit) &&
  (l[i+4]?.elim false Char.isDigit) &&
  l[i+5]? == some ')'

/-- Leftmost-match scan for the year token, from index `i` with `fuel`
remaining candidate positions. -/
def findTokAux (l : List Char) : Nat → Nat → Option Nat
  | _, 0 => none
  | i, fuel + 1 => if tokAt l i then some i else findTokAux l (i + 1) fuel

/-- Index of the leftmost `(dddd)` match (model of
`regexp.FindStringSubmatch` for the fixed pattern). -/
def findTok (l : List Char) : Option Nat := findTokAux l 0 l.length

/-- Numeric value of the digit at `l[i]` (0 when absent). -/
def digitValAt (l : List Char) (i : Nat) : Nat :=
  (l[i]?.getD '0').toNat - 48

/-- The year value of the match at `i` (model of `fmt.Sscanf("%d")` on the
four captured digits). -/
def tokYear (l : List Char) (i : Nat) : Nat :=
  ((digitValAt l (i+1) * 10 + digitValAt l (i+2)) * 10 +
    digitValAt l (i+3)) * 10 + digitValAt l (i+4)

/-- Remove all non-overlapping leftmost `(dddd)` matches (model of
`regexp.ReplaceAllString` with the empty replacement), fuel-driven. -/
def removeToksFuel : Nat → List Char → List Char
  | 0, l => l
  | fuel + 1, l =>
      match findTok l with
      | none => l
      | some i => l.take i ++ removeToksFuel fuel (l.drop (i + 6))

def removeToks (l : List Char) : List Char := removeToksFuel l.length l

/-- Model of `fmt.Sscanf` with verb `%02d`: scan at most two digits, at
least one; returns the value and the rest. -/
def scanInt2 : List Char → Option (Nat × List Char)
  | [] => none
  | c1 :: rest =>
      if c1.isDigit then
        match rest with
        | c2 :: rest2 =>
            if c2.isDigit then some ((c1.toNat - 48) * 10 + (c2.toNat - 48), rest2)
            else some (c1.toNat - 48, rest)
        | [] => some (c1.toNat - 48, [])
      else none

/-- Model of `fmt.Sscanf(code, "S%02dE%02d", &season, &episode)` with its
behaviour of keeping already-scanned values assigned when a
later verb fails; on full failure the current values are kept. -/
def scanSxxEyy (l : List Char) (curSeason curEpisode : Int) : Int × Int :=
  match l with
  | 'S' :: rest =>
      match scanInt2 rest with
      | none => (curSeason, curEpisode)
      | some (s, rest2) =>
          match rest2 with
          | 'E' :: rest3 =>
              match scanInt2 rest3 with
              | none => ((s : Int), curEpisode)
              | some (e, _) => ((s : Int), (e : Int))
          | _ => ((s : Int), curEpisode)
  | _ => (curSeason, curEpisode)

/-- Digits of a decimal run, for `fmt.Sscanf("%d")` on the season string. -/
def scanNatDigits (l : List Char) : Option Nat :=
  let ds := l.takeWhile Char.isDigit
  if ds.isEmpty then none
  else some (ds.foldl (fun a c => a * 10 + (c.toNat - 48)) 0)

/-- Model of `fmt.Sscanf(s, "%d", &n)`: an optional sign followed by digits;
`none` leaves the target unassigned. -/
def scanDec (l : List Char) : Option Int :=
  match l with
  | '-' :: rest => (scanNatDigits rest).map (fun n => -(n : Int))
  | _ => (scanNatDigits l).map (fun n => (n : Int))

/-- Model of `strings.TrimPre` + `fix`: drop `pat` when `l` begins with it. -/
def trimLead (pat l : List Char) : List Char :=
  if leads pat l then l.drop pat.length else l

/-- First index at which `pat` occurs in `l` (for `strings.Contains` and
`strings.SplitN` on `" - "`). -/
def findSub (l pat : List Char) : Option Nat :=
  (List.range (l.length + 1)).find? (fun i => (l.drop i).take pat.length == pat)

/-- The metadata record built by `parseOfflineContent` (fields `FilePath`,
`RelativePath`, `Size`, `ModTime` omitted: they are copied through and never
consulted by the claims). -/
structure OfflineContent where
  CName : String := ""        -- Go field `Name`
  CType : String := ""        -- Go field `Type`
  CSeriesName : String := ""  -- Go field `SeriesName`
  CSeasonNumber : Int := 0
  CEpisodeNumber : Int := 0
  CYear : Int := 0
deriving DecidableEq, Repr

/-- Model of `parseOfflineContent` (download.go:373-432), on the directory segments of
the relative path and the file's base name. -/
def parseOfflineContent (dirParts : List String) (fileName : String) :
    OfflineContent :=
  let name0 := trimSuffix fileName ".mkv"
  if 2 ≤ dirParts.length ∧ leads "Season".data (dirParts.getD 1 "").data then
    -- TV show: Series/Season XX/Episode
    let seriesName := dirParts.getD 0 ""
    let seasonStr := trimSpace (trimLead "Season ".data (dirParts.getD 1 "").data)
    let season0 : Int :=
      if seasonStr.length > 0 then (scanDec seasonStr).getD 0 else 0
    match findSub name0.data " - ".data with
    | some i =>
        let episodeCode := name0.data.take i
        let newName : String := ⟨name0.data.drop (i + 3)⟩
        if leads "S".data episodeCode && episodeCode.contains 'E' then
          let se := scanSxxEyy episodeCode season0 0
          { CName := newName, CType := "Episode", CSeriesName := seriesName,
            CSeasonNumber := se.1, CEpisodeNumber := se.2 }
        else
          { CName := newName, CType := "Episode", CSeriesName := seriesName,
            CSeasonNumber := season0 }
    | none =>
        { CName := name0, CType := "Episode", CSeriesName := seriesName,
          CSeasonNumber := season0 }
  else if dirParts.getD 0 "" == "Movies" then
    -- Movie: Movies/Movie Name (Year).mkv
    if name0.data.contains '(' && name0.data.contains ')' then
      match findTok name0.data with
      | some i =>
          { CName := ⟨trimSpace (removeToks name0.data)⟩, CType := "Movie",
            CYear := (tokYear name0.data i : Int) }
      | none => { CName := name0, CType := "Movie" }
    else { CName := name0, CType := "Movie" }
  else
    { CName := name0, CType := "Other" }

/-- Model of `sanitizeID` (download.go:550-555): runs of non-alphanumeric characters
become a single `-`, then leading/trailing `-` are trimmed.  Modelled as
per-character replacement followed by collapsing adjacent dashes. -/
def squashDashes : List Char → List Char
  | [] => []
  | [x] => [x]
  | x :: y :: rest =>
      if x == '-' && y == '-' then squashDashes (y :: rest)
      else x :: squashDashes (y :: rest)

def trimDashes (l : List Char) : List Char :=
  ((l.dropWhile (· == '-')).reverse.dropWhile (· == '-')).reverse

def sanitizeID (s : String) : String :=
  ⟨trimDashes (squashDashes (s.data.map
    (fun c => if c.isAlpha || c.isDigit then c else '-')))⟩

/-- Model of `convertToItems` (download.go:435-498): group episodes by series into
synthetic folder entries, emit movies and other content directly.  Go
iterates the series map in unspecified order; modelled in first-occurrence
order. -/
def dedupAux : List String → List String → List String
  | _, [] => []
  | seen, x :: rest =>
      if seen.contains x then dedupAux seen rest
      else x :: dedupAux (seen ++ [x]) rest

def convertToItems (contents : List OfflineContent) : List DetailedItem :=
  let episodes := contents.filter (fun c => c.CType == "Episode")
  let movies := contents.filter (fun c => c.CType == "Movie")
  let others := contents.filter
    (fun c => c.CType != "Episode" && c.CType != "Movie")
  let seriesNames := dedupAux [] (episodes.map (fun c => c.CSeriesName))
  seriesNames.map (fun n =>
    { Name := n, Id := "offline-series-" ++ sanitizeID n,
      IsFolder := true, ItemType := "Series" })
  ++ movies.map (fun m =>
    { Name := m.CName, Id := "offline-movie-" ++ sanitizeID m.CName,
      IsFolder := false, ItemType := "Movie", ProductionYear := m.CYear })
  ++ others.map (fun o =>
    { Name := o.CName, Id := "offline-other-" ++ sanitizeID o.CName,
      IsFolder := false, ItemType := "Video" })

/-- Model of `DiscoverOfflineContent` (download.go:334-370): walk the downloads root
(the walk yields the media files as (directory segments, base name) pairs),
keep the `.mkv` files, parse each, convert to items. -/
def DiscoverOfflineContent (files : List (List String × String)) :
    List DetailedItem :=
  convertToItems
    ((files.filter (fun f => trails ".mkv".data (toLowerStr f.2).data)).map
      (fun f => parseOfflineContent f.1 f.2))

/-! ## Lemmas for the year-token scanner -/

theorem tokAt_ge_len {l : List Char} {i : Nat} (h : l.length ≤ i) :
    tokAt l i = false := by
  unfold tokAt
  rw [List.getElem?_eq_none h]
  rfl

theorem findTokAux_none_all {l : List Char} :
    ∀ (fuel i0 : Nat), findTokAux l i0 fuel = none →
      ∀ j, i0 ≤ j → j < i0 + fuel → tokAt l j = false := by
  intro fuel
  induction fuel with
  | zero => intro i0 _ j _ hj; omega
  | succ f ih =>
      intro i0 h j hj1 hj2
      unfold findTokAux at h
      by_cases ht : tokAt l i0 = true
      · rw [if_pos ht] at h; cases h
      · rw [if_neg ht] at h
        by_cases hji : j = i0
        · rw [hji]; exact eq_false_of_ne_true ht
        · exact ih (i0 + 1) h j (by omega) (by omega)

theorem findTok_none_all {l : List Char} (h : findTok l = none) (i : Nat) :
    tokAt l i = false := by
  by_cases hi : i < l.length
  · exact findTokAux_none_all l.length 0 h i (Nat.zero_le i) (by omega)
  · exact tokAt_ge_len (by omega)

theorem findTokAux_first {l : List Char} {k : Nat} (hk : tokAt l k = true) :
    ∀ (fuel i0 : Nat), (∀ j, i0 ≤ j → j < k → tokAt l j = false) →
      i0 ≤ k → k < i0 + fuel → findTokAux l i0 fuel = some k := by
  intro fuel
  induction fuel with
  | zero => intro i0 _ _ hlt; omega
  | succ f ih =>
      intro i0 hbefore hle hlt
      unfold findTokAux
      by_cases hik : i0 = k
      · rw [hik, if_pos hk]
      · rw [if_neg ?_]
        · exact ih (i0 + 1) (fun j h1 h2 => hbefore j (by omega) h2)
            (by omega) (by omega)
        · rw [hbefore i0 (le_refl i0) (by omega)]
          simp

/-! ## Digit-rendering lemmas -/

theorem digitsFuel_zero_n (f : Nat) : digitsFuel f 0 = [] := by
  cases f <;> rfl

theorem digitsFuel_step {f n : Nat} (hf : 1 ≤ f) (hn : n ≠ 0) :
    digitsFuel f n = digitsFuel (f - 1) (n / 10) ++ [digitChar (n % 10)] := by
  cases f with
  | zero => omega
  | succ g =>
      show (if n == 0 then [] else _) = _
      rw [if_neg (by simpa using hn)]
      rfl

theorem digitsFuel_four {f n : Nat} (h1 : 1000 ≤ n) (h2 : n ≤ 9999)
    (hf : 4 ≤ f) :
    digitsFuel f n = [digitChar (n / 1000), digitChar (n / 100 % 10),
      digitChar (n / 10 % 10), digitChar (n % 10)] := by
  rw [digitsFuel_step (by omega) (by omega)]
  rw [digitsFuel_step (f := f - 1) (by omega) (by omega)]
  rw [digitsFuel_step (f := f - 1 - 1) (by omega) (by omega)]
  rw [digitsFuel_step (f := f - 1 - 1 - 1) (by omega) (by omega)]
  have e0 : n / 10 / 10 / 10 / 10 = 0 := by omega
  rw [e0, digitsFuel_zero_n]
  have e1 : n / 10 / 10 / 10 % 10 = n / 1000 := by omega
  have e2 : n / 10 / 10 % 10 = n / 100 % 10 := by omega
  have e3 : n / 10 % 10 = n / 10 % 10 := rfl
  rw [e1, e2]
  simp

theorem natRepr_four {n : Nat} (h1 : 1000 ≤ n) (h2 : n ≤ 9999) :
    (natRepr n).data = [digitChar (n / 1000), digitChar (n / 100 % 10),
      digitChar (n / 10 % 10), digitChar (n % 10)] := by
  unfold natRepr
  rw [if_neg (by simp; omega)]
  exact digitsFuel_four h1 h2 (by omega)

theorem digitChar_toNat {d : Nat} (h : d < 10) : (digitChar d).toNat = 48 + d := by
  interval_cases d <;> decide

theorem digitChar_isDigit {d : Nat} (h : d < 10) :
    (digitChar d).isDigit = true := by
  interval_cases d <;> decide

theorem digitChar_ne_rparen {d : Nat} (h : d < 10) :
    ((digitChar d : Char) == ')') = false := by
  interval_cases d <;> decide

/-! ## Whitespace-trim lemmas -/

/-- The head of the list, when present, is not whitespace. -/
def okHeadB (l : List Char) : Bool :=
  match l with
  | [] => true
  | c :: _ => !isWS c

theorem okHeadB_dropWhile (l : List Char) :
    okHeadB (l.dropWhile isWS) = true := by
  induction l with
  | nil => rfl
  | cons x t ih =>
      by_cases hx : isWS x = true
      · rw [List.dropWhile_cons_of_pos hx]; exact ih
      · rw [List.dropWhile_cons_of_neg hx]
        show (!isWS x) = true
        simpa using hx

theorem dropWhile_of_okHeadB {l : List Char} (h : okHeadB l = true) :
    l.dropWhile isWS = l := by
  cases l with
  | nil => rfl
  | cons x t =>
      unfold okHeadB at h
      rw [List.dropWhile_cons_of_neg]
      simpa using h

theorem okLastB_dropWhile (w : List Char) (h : okHeadB w.reverse = true) :
    okHeadB (w.dropWhile isWS).reverse = true := by
  induction w with
  | nil => rfl
  | cons x t ih =>
      by_cases hx : isWS x = true
      · rw [List.dropWhile_cons_of_pos hx]
        refine ih ?_
        rw [List.reverse_cons] at h
        cases htr : t.reverse with
        | nil => rfl
        | cons c z =>
            rw [htr] at h
            exact h
      · rw [List.dropWhile_cons_of_neg hx]
        exact h

theorem trimSpace_okHeadB (l : List Char) : okHeadB (trimSpace l) = true := by
  unfold trimSpace
  refine okLastB_dropWhile _ ?_
  rw [List.reverse_reverse]
  exact okHeadB_dropWhile l

theorem trimSpace_rev_okHeadB (l : List Char) :
    okHeadB (trimSpace l).reverse = true := by
  unfold trimSpace
  rw [List.reverse_reverse]
  exact okHeadB_dropWhile _

theorem trimSpace_append_space (l : List Char) :
    trimSpace (trimSpace l ++ [' ']) = trimSpace l := by
  have hb := trimSpace_okHeadB l
  have hbr := trimSpace_rev_okHeadB l
  cases hcase : trimSpace l with
  | nil => rfl
  | cons c t =>
      rw [hcase] at hb hbr
      unfold trimSpace
      have h1 : (c :: t ++ [' ']).dropWhile isWS = c :: t ++ [' '] := by
        rw [List.cons_append]
        rw [List.dropWhile_cons_of_neg]
        unfold okHeadB at hb
        simpa using hb
      rw [h1]
      have h2 : (c :: t ++ [' ']).reverse = ' ' :: (c :: t).reverse := by
        rw [List.reverse_append]
        rfl
      rw [h2]
      have h3 : (' ' :: (c :: t).reverse).dropWhile isWS =
          ((c :: t).reverse).dropWhile isWS := by
        rw [List.dropWhile_cons_of_pos]
        decide
      rw [h3]
      rw [dropWhile_of_okHeadB hbr]
      exact List.reverse_reverse _

/-! ## The movie filename body `<sanitized title> (dddd)` -/

theorem contains_of_mem {c : Char} {l : List Char} (h : c ∈ l) :
    l.contains c = true := by simpa using h

theorem leads_append_self (p z : List Char) : leads p (p ++ z) = true := by
  induction p with
  | nil => rfl
  | cons x xs ih => simp [leads, ih]

theorem trails_append_self (pat l : List Char) :
    trails pat (l ++ pat) = true := by
  unfold trails
  rw [List.reverse_append]
  exact leads_append_self _ _

theorem trimSuffix_of_data {fn : String} {l : List Char} {suf : String}
    (h : fn.data = l ++ suf.data) : trimSuffix fn suf = ⟨l⟩ := by
  unfold trimSuffix
  rw [h, trails_append_self, if_pos rfl]
  have hlen : (l ++ suf.data).length - suf.data.length = l.length := by
    rw [List.length_append]; omega
  rw [hlen, List.take_append_eq_append_take, List.take_of_length_le (le_refl _),
    Nat.sub_self, List.take_zero, List.append_nil]

theorem digit_ne_rparen {c : Char} (h : c.isDigit = true) :
    (c == ')') = false := by
  by_cases he : (c == ')') = true
  · rw [eq_of_beq he] at h
    exact absurd h (by decide)
  · exact eq_false_of_ne_true he

section Body

variable {s : List Char} {d1 d2 d3 d4 : Char}

/-- Positions of the appended ` (dddd)` block. -/
theorem body_getElem (s : List Char) (d1 d2 d3 d4 : Char) (k : Nat) :
    (s ++ [' ', '(', d1, d2, d3, d4, ')'])[s.length + k]? =
      [' ', '(', d1, d2, d3, d4, ')'][k]? := by
  rw [List.getElem?_append_right (by omega)]
  congr 1
  omega

theorem tokAt_body_lt (hd1 : d1.isDigit = true) (hd2 : d2.isDigit = true)
    (hd3 : d3.isDigit = true)
    (hnt : ∀ i, tokAt s i = false) (i : Nat) (hi : i < s.length) :
    tokAt (s ++ [' ', '(', d1, d2, d3, d4, ')']) i = false := by
  by_cases h5 : i + 5 < s.length
  · have heq : tokAt (s ++ [' ', '(', d1, d2, d3, d4, ')']) i = tokAt s i := by
      unfold tokAt
      rw [List.getElem?_append_left (by omega), List.getElem?_append_left (by omega),
        List.getElem?_append_left (by omega), List.getElem?_append_left (by omega),
        List.getElem?_append_left (by omega), List.getElem?_append_left (by omega)]
    rw [heq]
    exact hnt i
  · have hcj : ((s ++ [' ', '(', d1, d2, d3, d4, ')'])[i + 5]? == some ')') = false := by
      have hrw : (s ++ [' ', '(', d1, d2, d3, d4, ')'])[i + 5]? =
          [' ', '(', d1, d2, d3, d4, ')'][i + 5 - s.length]? := by
        rw [List.getElem?_append_right (by omega)]
      rw [hrw]
      have hk : i + 5 - s.length < 5 := by omega
      set k := i + 5 - s.length with hkdef
      interval_cases k
      · rfl
      · rfl
      · simpa using digit_ne_rparen hd1
      · simpa using digit_ne_rparen hd2
      · simpa using digit_ne_rparen hd3
    unfold tokAt
    rw [hcj]
    simp

theorem tokAt_body_at_len :
    tokAt (s ++ [' ', '(', d1, d2, d3, d4, ')']) s.length = false := by
  unfold tokAt
  rw [List.getElem?_append_right (le_refl _), Nat.sub_self]
  simp

theorem tokAt_body_match (hd1 : d1.isDigit = true) (hd2 : d2.isDigit = true)
    (hd3 : d3.isDigit = true) (hd4 : d4.isDigit = true) :
    tokAt (s ++ [' ', '(', d1, d2, d3, d4, ')']) (s.length + 1) = true := by
  unfold tokAt
  have e2 : s.length + 1 + 1 = s.length + 2 := by omega
  have e3 : s.length + 1 + 2 = s.length + 3 := by omega
  have e4 : s.length + 1 + 3 = s.length + 4 := by omega
  have e5 : s.length + 1 + 4 = s.length + 5 := by omega
  have e6 : s.length + 1 + 5 = s.length + 6 := by omega
  rw [e2, e3, e4, e5, e6, body_getElem s d1 d2 d3 d4 1,
    body_getElem s d1 d2 d3 d4 2, body_getElem s d1 d2 d3 d4 3,
    body_getElem s d1 d2 d3 d4 4, body_getElem s d1 d2 d3 d4 5,
    body_getElem s d1 d2 d3 d4 6]
  simp [hd1, hd2, hd3, hd4]

theorem findTok_body (hd1 : d1.isDigit = true) (hd2 : d2.isDigit = true)
    (hd3 : d3.isDigit = true) (hd4 : d4.isDigit = true)
    (hnt : ∀ i, tokAt s i = false) :
    findTok (s ++ [' ', '(', d1, d2, d3, d4, ')']) = some (s.length + 1) := by
  unfold findTok
  refine findTokAux_first (tokAt_body_match hd1 hd2 hd3 hd4) _ 0 ?_ (by omega) ?_
  · intro j _ hj
    by_cases hjs : j < s.length
    · exact tokAt_body_lt hd1 hd2 hd3 hnt j hjs
    · have : j = s.length := by omega
      rw [this]
      exact tokAt_body_at_len
  · rw [List.length_append]
    simp

end Body

section Body2

variable {s : List Char} {d1 d2 d3 d4 : Char}

theorem removeToksFuel_nil (f : Nat) : removeToksFuel f [] = [] := by
  cases f <;> rfl

theorem removeToksFuel_pos {f : Nat} (l : List Char) (hf : 0 < f) :
    removeToksFuel f l =
      match findTok l with
      | none => l
      | some i => l.take i ++ removeToksFuel (f - 1) (l.drop (i + 6)) := by
  cases f with
  | zero => omega
  | succ g => rfl

theorem removeToks_body (hd1 : d1.isDigit = true) (hd2 : d2.isDigit = true)
    (hd3 : d3.isDigit = true) (hd4 : d4.isDigit = true)
    (hnt : ∀ i, tokAt s i = false) :
    removeToks (s ++ [' ', '(', d1, d2, d3, d4, ')']) = s ++ [' '] := by
  unfold removeToks
  rw [removeToksFuel_pos _ (by rw [List.length_append]; simp)]
  rw [findTok_body hd1 hd2 hd3 hd4 hnt]
  dsimp only
  have htake : (s ++ [' ', '(', d1, d2, d3, d4, ')']).take (s.length + 1) =
      s ++ [' '] := by
    rw [List.take_append_eq_append_take,
      List.take_of_length_le (by omega)]
    congr 1
    rw [Nat.add_sub_cancel_left]
    rfl
  have hdrop : (s ++ [' ', '(', d1, d2, d3, d4, ')']).drop (s.length + 1 + 6) =
      [] := by
    rw [List.drop_append_eq_append_drop,
      List.drop_eq_nil_of_le (by omega)]
    have : s.length + 1 + 6 - s.length = 7 := by omega
    rw [this]
    rfl
  rw [htake, hdrop, removeToksFuel_nil, List.append_nil]

theorem tokYear_body (hn1 : d1 = digitChar (n / 1000))
    (hn2 : d2 = digitChar (n / 100 % 10)) (hn3 : d3 = digitChar (n / 10 % 10))
    (hn4 : d4 = digitChar (n % 10)) (hlo : 1000 ≤ n) (hhi : n ≤ 9999) :
    tokYear (s ++ [' ', '(', d1, d2, d3, d4, ')']) (s.length + 1) = n := by
  unfold tokYear digitValAt
  have e2 : s.length + 1 + 1 = s.length + 2 := by omega
  have e3 : s.length + 1 + 2 = s.length + 3 := by omega
  have e4 : s.length + 1 + 3 = s.length + 4 := by omega
  have e5 : s.length + 1 + 4 = s.length + 5 := by omega
  rw [e2, e3, e4, e5, body_getElem s d1 d2 d3 d4 2, body_getElem s d1 d2 d3 d4 3,
    body_getElem s d1 d2 d3 d4 4, body_getElem s d1 d2 d3 d4 5]
  show (((d1.toNat - 48) * 10 + (d2.toNat - 48)) * 10 + (d3.toNat - 48)) * 10 +
      (d4.toNat - 48) = n
  rw [hn1, hn2, hn3, hn4, digitChar_toNat (by omega), digitChar_toNat (by omega),
    digitChar_toNat (by omega), digitChar_toNat (by omega)]
  omega

end Body2

/-! ## Claim C8 -/

/-- The canonical movie filename produced by the resolver for a positive
year. -/
def movieFileName (title : String) (year : Int) : String :=
  sanitize title ++ " (" ++ natRepr year.toNat ++ ")" ++ ".mkv"

/-- The single Movie entry the offline scan should produce for that file. -/
def movieItemOf (title : String) (year : Int) : DetailedItem :=
  { Name := sanitize title, Id := "offline-movie-" ++ sanitizeID (sanitize title),
    IsFolder := false, ItemType := "Movie", ProductionYear := year }

/-- Claim C8 as stated: resolving the movie places
`Movies/<title> (<year>).mkv`, and scanning a root holding exactly that file
yields exactly one Movie entry with the sanitized title and the item's
year. -/
def claimC8 (title : String) (year : Int) : Prop :=
  BuildVideoPath { Name := title, ItemType := "Movie", ProductionYear := year } =
    ["Movies", movieFileName title year]
  ∧ DiscoverOfflineContent [(["Movies"], movieFileName title year)] =
      [movieItemOf title year]

theorem convertToItems_movie (name : String) (y : Int) :
    convertToItems [{ CName := name, CType := "Movie", CYear := y }] =
      [{ Name := name, Id := "offline-movie-" ++ sanitizeID name,
         IsFolder := false, ItemType := "Movie", ProductionYear := y }] := rfl

/-- C8 counterexample: the movie "T" with the positive year 5 resolves to
`Movies/T (5).mkv`, but the year-parse regex requires exactly four digits:
the scan classifies the file as a Movie named "T (5)" with year 0, not as
"T" with year 5 — the round trip fails for positive years outside
1000..9999. -/
theorem c8_counterexample :
    (0 : Int) < 5 ∧ findTok (sanitize "T").data = none ∧ ¬ claimC8 "T" 5 := by
  refine ⟨by decide, by decide, ?_⟩
  unfold claimC8 movieFileName movieItemOf
  decide

/-- C8 (amended): the movie round trip holds for every title whose sanitized
form contains no `(dddd)` token and every four-digit year 1000..9999 (as the
counterexample shows, other positive years do not survive the parse). -/
theorem c8_amended (title : String) (year : Int) (hy1 : 1000 ≤ year)
    (hy2 : year ≤ 9999) (hnt : findTok (sanitize title).data = none) :
    claimC8 title year := by
  have hntAll := findTok_none_all hnt
  set n := year.toNat with hn
  have hn1 : 1000 ≤ n := by omega
  have hn2 : n ≤ 9999 := by omega
  have hd1 : (digitChar (n / 1000)).isDigit = true := digitChar_isDigit (by omega)
  have hd2 : (digitChar (n / 100 % 10)).isDigit = true := digitChar_isDigit (by omega)
  have hd3 : (digitChar (n / 10 % 10)).isDigit = true := digitChar_isDigit (by omega)
  have hd4 : (digitChar (n % 10)).isDigit = true := digitChar_isDigit (by omega)
  have hfn : (movieFileName title year).data =
      ((sanitize title).data ++ [' ', '(', digitChar (n / 1000),
        digitChar (n / 100 % 10), digitChar (n / 10 % 10), digitChar (n % 10),
        ')']) ++ ".mkv".data := by
    unfold movieFileName
    rw [String.data_append, String.data_append, String.data_append,
      String.data_append]
    rw [← hn, natRepr_four hn1 hn2]
    have e1 : (" (" : String).data = [' ', '('] := rfl
    have e2 : ((")") : String).data = [')'] := rfl
    rw [e1, e2]
    simp [List.append_assoc]
  have hfind : findTok ((sanitize title).data ++ [' ', '(', digitChar (n / 1000),
      digitChar (n / 100 % 10), digitChar (n / 10 % 10), digitChar (n % 10),
      ')']) = some ((sanitize title).data.length + 1) :=
    findTok_body hd1 hd2 hd3 hd4 hntAll
  constructor
  · unfold BuildVideoPath movieFileName
    have hc1 : ((({ Name := title, ItemType := "Movie", ProductionYear := year } :
        DetailedItem).ItemType == "Episode") &&
        (({ Name := title, ItemType := "Movie", ProductionYear := year } :
        DetailedItem).SeriesName != "")) = false := rfl
    rw [hc1]
    simp only [Bool.false_eq_true, if_false]
    rw [if_pos (show (("Movie" : String) == "Movie") = true from rfl)]
    have hyearpos : ({ Name := title, ItemType := "Movie", ProductionYear := year } : DetailedItem).GetYear > 0 := by
      show year > 0
      omega
    rw [if_pos hyearpos]
    rfl
  · unfold DiscoverOfflineContent
    have hlow : trails ".mkv".data
        (toLowerStr (movieFileName title year)).data = true := by
      show trails ".mkv".data ((movieFileName title year).data.map Char.toLower) = true
      rw [hfn, List.map_append]
      rw [show (".mkv".data.map Char.toLower) = ".mkv".data from by decide]
      exact trails_append_self _ _
    have hfilter : List.filter
        (fun f => trails ".mkv".data (toLowerStr f.2).data)
        [((["Movies"] : List String), movieFileName title year)] =
        [((["Movies"] : List String), movieFileName title year)] := by
      simp [List.filter, hlow]
    rw [hfilter]
    rw [List.map_singleton]
    have hparse : parseOfflineContent ["Movies"] (movieFileName title year) =
        { CName := sanitize title, CType := "Movie", CSeriesName := "",
          CSeasonNumber := 0, CEpisodeNumber := 0, CYear := year } := by
      unfold parseOfflineContent
      rw [trimSuffix_of_data hfn]
      rw [if_neg (by intro hc; rcases hc with ⟨hlen, _⟩; simp at hlen)]
      rw [if_pos (show (((["Movies"] : List String)).getD 0 "" == "Movies") = true
        from rfl)]
      rw [if_pos ?hcont]
      case hcont =>
        refine Bool.and_eq_true_iff.2 ⟨contains_of_mem ?_, contains_of_mem ?_⟩
        · show '(' ∈ (sanitize title).data ++ _
          refine List.mem_append_right _ ?_
          simp
        · show ')' ∈ (sanitize title).data ++ _
          refine List.mem_append_right _ ?_
          simp
      show (match findTok ((sanitize title).data ++ [' ', '(',
          digitChar (n / 1000), digitChar (n / 100 % 10),
          digitChar (n / 10 % 10), digitChar (n % 10), ')']) with
        | some i => _
        | none => _) = _
      rw [hfind]
      dsimp only
      have hrem : trimSpace (removeToks ((sanitize title).data ++ [' ', '(',
          digitChar (n / 1000), digitChar (n / 100 % 10),
          digitChar (n / 10 % 10), digitChar (n % 10), ')'])) =
          (sanitize title).data := by
        rw [removeToks_body hd1 hd2 hd3 hd4 hntAll]
        exact trimSpace_append_space
          ((title.data.map fun c => if isIllegalChar c then '_' else c).take 100)
      rw [hrem]
      have hyr : tokYear ((sanitize title).data ++ [' ', '(',
          digitChar (n / 1000), digitChar (n / 100 % 10),
          digitChar (n / 10 % 10), digitChar (n % 10), ')'])
          ((sanitize title).data.length + 1) = n :=
        tokYear_body rfl rfl rfl rfl hn1 hn2
      rw [hyr]
      have hcast : ((n : Nat) : Int) = year := by omega
      rw [hcast]
    rw [hparse]
    rw [convertToItems_movie]
    rfl

/-- C8 witness: the amended round trip at title "T", year 1999. -/
theorem c8_amended_witness :
    DiscoverOfflineContent [(["Movies"], "T (1999).mkv")] =
      [{ Name := "T", Id := "offline-movie-T", IsFolder := false,
         ItemType := "Movie", ProductionYear := 1999 }] := by
  have h := (c8_amended "T" 1999 (by decide) (by decide) (by decide)).2
  have e : movieFileName "T" 1999 = "T (1999).mkv" := by decide
  rw [e] at h
  rw [h]
  decide

end Jtui
